import Mathlib

/-!
Verification of the IGNYTE deploy-bot staging workflow (src/bot/bot.py).

The Python program is shallowly embedded as pure Lean functions.  External
effects are made explicit parameters or data:

* the text-generation call (`anthropic` / `generate_with_context`) is an
  `Except String String` argument: `.ok raw` is the raw response text,
  `.error e` a raised exception;
* `content_hash` (md5 hexdigest) is an opaque function argument
  `String → String`;
* `git_push` (subprocess) is a `PushResult` argument mapped to the exact
  strings the Python function returns;
* the ledger backing file `.deploy_log.json` is a `LedgerFile`: `missing`
  (os.path.exists false), `corrupt` (file present, `json.load` raises
  `JSONDecodeError`) or `entries l` (file present and parses to `l`);
* filesystem roots (`public_html` and `public_html/dev`) are association
  lists from relative path to body;
* per-conversation `context.user_data["pending"]` is an `Option Pending`.

Python strings are modelled as Lean `String`s, with character-list helpers
used where the program slices and strips; `.strip()` is modelled with
`Char.isWhitespace` (ASCII whitespace, which covers every string the
program manipulates).
-/

namespace Ignyte

/-- Python `s.strip()` on a list of characters: drop whitespace from both
ends. -/
def trimChars (s : List Char) : List Char :=
  List.rdropWhile Char.isWhitespace (List.dropWhile Char.isWhitespace s)

/-- Python `s.strip()` on strings. -/
def strTrim (s : String) : String := (trimChars s.toList).asString

/-- Python `s[:n]` on strings. -/
def strTake (s : String) (n : Nat) : String := (s.toList.take n).asString

/-- Python `s.lower()` (ASCII case folding suffices for the inputs used). -/
def strLower (s : String) : String := (s.toList.map Char.toLower).asString

/-- Substring test on character lists, used for Python's `needle in hay`. -/
def containsSub : List Char → List Char → Bool
  | [], needle => needle.isEmpty
  | hay@(_ :: t), needle => needle.isPrefixOf hay || containsSub t needle

/-- Python `needle in hay` on strings. -/
def strIn (needle hay : String) : Bool := containsSub hay.toList needle.toList

/-- Python `s.replace(old, new, 1)` on character lists: replace the first
occurrence of `old` (always nonempty here). -/
def replaceFirstList (old new : List Char) : List Char → List Char
  | [] => if old.isEmpty then new else []
  | c :: rest =>
    if old.isPrefixOf (c :: rest) then new ++ (c :: rest).drop old.length
    else c :: replaceFirstList old new rest

/-- Python `s.replace(old, new, 1)` on strings. -/
def replaceFirstStr (s old new : String) : String :=
  (replaceFirstList old.toList new.toList s.toList).asString

/-- Python `s.split(sep, 1)`: `none` when `sep` does not occur (the list
result has a single element), otherwise the parts before and after the
first occurrence. -/
def splitOnceChar (sep : Char) : List Char → Option (List Char × List Char)
  | [] => none
  | c :: rest =>
    if c = sep then some ([], rest)
    else
      match splitOnceChar sep rest with
      | none => none
      | some (a, b) => some (c :: a, b)

/-- Code-point comparison of character lists, Python's string ordering. -/
def listLeB : List Char → List Char → Bool
  | [], _ => true
  | _ :: _, [] => false
  | a :: as, b :: bs =>
    if a.toNat < b.toNat then true
    else if b.toNat < a.toNat then false
    else listLeB as bs

/-- Python `a <= b` on strings (code-point lexicographic). -/
def strLeB (a b : String) : Bool := listLeB a.toList b.toList

/-- Insert into a sorted list of strings. -/
def insertSorted (x : String) : List String → List String
  | [] => [x]
  | y :: ys => if strLeB x y then x :: y :: ys else y :: insertSorted x ys

/-- Python `sorted(...)` on strings (insertion sort; the keys sorted by the
program are distinct dictionary keys, so any stable sort agrees). -/
def sortStrings : List String → List String
  | [] => []
  | x :: xs => insertSorted x (sortStrings xs)

/-- Digit-grouping helper for Python's format spec with a comma: walking the
reversed digit list, a comma is inserted before every third digit. -/
def commaAux : Nat → List Char → List Char
  | _, [] => []
  | i, c :: cs =>
    if i % 3 == 0 && i != 0 then ',' :: c :: commaAux (i + 1) cs
    else c :: commaAux (i + 1) cs

/-- Python `f"{n:,}"` for naturals: thousands separators. -/
def pyThousands (n : Nat) : String :=
  ((commaAux 0 (toString n).toList.reverse).reverse).asString

/-- The 3-character markdown fence marker. -/
def fence : List Char := "```".toList

/-- The output post-processing of `generate_with_context` (bot.py lines
158-165): strip the response text, drop a leading fence line when the text
starts with the fence (the whole first line up to the first newline, or just
3 characters when there is no newline), drop a trailing fence when the text
ends with one (`html[:-3]`), then strip again. -/
def clean_generated (raw : List Char) : List Char :=
  let h0 := trimChars raw
  let h1 :=
    if fence.isPrefixOf h0 then
      match splitOnceChar '\n' h0 with
      | some (_, after) => after
      | none => h0.drop 3
    else h0
  let h2 := if fence.isSuffixOf h1 then h1.take (h1.length - 3) else h1
  trimChars h2

/-- String wrapper for `clean_generated`. -/
def cleanGeneratedStr (raw : String) : String := (clean_generated raw.toList).asString

/-- The chunking in `cmd_preview` (bot.py line 359): Python
`[content[i:i+3900] for i in range(0, len(content), 3900)]`. -/
def previewChunks (content : List Char) : List (List Char) :=
  if _h : content = [] then []
  else content.take 3900 :: previewChunks (content.drop 3900)
termination_by content.length
decreasing_by
  have hl : 0 < content.length := List.length_pos.mpr _h
  simp only [List.length_drop]
  omega

/-- One deployment record in `.deploy_log.json` (bot.py lines 70-75). -/
structure LedgerEntry where
  file : String
  hash : String
  prompt : String
  timestamp : String
deriving DecidableEq, Repr

/-- The state of the ledger backing file `.deploy_log.json`: absent,
present but not valid JSON (so `json.load` raises), or present and parsed
to a list of entries. -/
inductive LedgerFile where
  | missing : LedgerFile
  | corrupt : LedgerFile
  | entries : List LedgerEntry → LedgerFile
deriving DecidableEq, Repr

/-- `load_deploy_log` (bot.py lines 53-58): a missing file yields `[]`; an
existing file is fed to `json.load`, which returns the parsed list or
raises `JSONDecodeError` on corrupt contents (the exception is not caught
here). -/
def load_deploy_log : LedgerFile → Except String (List LedgerEntry)
  | .missing => .ok []
  | .corrupt => .error "JSONDecodeError"
  | .entries l => .ok l

/-- The entry appended by `log_deployment`: prompt truncated to 100
characters, current timestamp attached. -/
def mkEntry (file hash prompt ts : String) : LedgerEntry :=
  { file := file, hash := hash, prompt := strTake prompt 100, timestamp := ts }

/-- Python `l[-n:]`: the last `n` elements (all of them when fewer). -/
def lastN (n : Nat) (l : List α) : List α := l.drop (l.length - n)

/-- `log_deployment` (bot.py lines 67-77): load the log (propagating a read
failure), append one entry, save only the last 50 entries. -/
def log_deployment (lf : LedgerFile) (file hash prompt ts : String) :
    Except String LedgerFile :=
  match load_deploy_log lf with
  | .error e => .error e
  | .ok log => .ok (.entries (lastN 50 (log ++ [mkEntry file hash prompt ts])))

/-- `was_already_deployed` (bot.py lines 80-83): load the log (propagating a
read failure) and test whether any entry matches both file and hash. -/
def was_already_deployed (file hash : String) (lf : LedgerFile) :
    Except String Bool :=
  match load_deploy_log lf with
  | .error e => .error e
  | .ok log => .ok (log.any fun e => e.file == file && e.hash == hash)

/-- A filesystem root as an association list from relative path to body
(Python dict keys are unique, insertion-ordered). -/
abbrev FileMap := List (String × String)

/-- Dictionary lookup. -/
def fmLookup (m : FileMap) (k : String) : Option String :=
  match m with
  | [] => none
  | (k', v) :: rest => if k' == k then some v else fmLookup rest k

/-- Full-body overwrite (`open(path, "w").write(body)`), creating the entry
when absent. -/
def fmWrite (m : FileMap) (k v : String) : FileMap :=
  match m with
  | [] => [(k, v)]
  | (k', v') :: rest => if k' == k then (k, v) :: rest else (k', v') :: fmWrite rest k v

/-- File deletion (`os.remove`), a no-op when the key is absent. -/
def fmErase (m : FileMap) (k : String) : FileMap :=
  match m with
  | [] => []
  | (k', v') :: rest => if k' == k then rest else (k', v') :: fmErase rest k

/-- `context.user_data["pending"]` (bot.py lines 300-305). -/
structure Pending where
  file : String
  hash : String
  prompt : String
  dev_path : String
deriving DecidableEq, Repr

/-- The per-conversation session state: the published root (`public_html`),
the staged root (`public_html/dev`), the ledger backing file, and the
pending slot. -/
structure SessionState where
  prodFiles : FileMap
  devFiles : FileMap
  ledger : LedgerFile
  pending : Option Pending
deriving DecidableEq, Repr

/-- Result of one handler invocation: the successor state and the replies
sent, in order. -/
structure StepResult where
  state : SessionState
  replies : List String
deriving DecidableEq, Repr

/-- Outcome of the external git subprocess sequence inside `git_push`. -/
inductive PushResult where
  | pushed : PushResult
  | nothingToPush : PushResult
  | gitError : String → PushResult
deriving DecidableEq, Repr

/-- The string `git_push` (bot.py lines 86-100) returns for each outcome. -/
def git_push_msg : PushResult → String
  | .nothingToPush => "⚠️ No changes to push."
  | .pushed => "✅ Pushed to GitHub → Hostinger auto-deploy triggered"
  | .gitError e => "❌ Git error: " ++ e

/-- First reply of `_generate_and_stage`. -/
def readingMsg : String := "🔄 Reading current site files..."

/-- Second reply of `_generate_and_stage` once the target check passed. -/
def readCountMsg (n : Nat) : String :=
  "📖 Read " ++ toString n ++ " file(s). Generating changes with Claude..."

/-- The duplicate no-op reply (bot.py line 289). -/
def alreadyDeployedMsg : String :=
  "⚠️ This exact content was already deployed. No changes needed."

/-- The reply of `handle_message` while a deploy is pending (bot.py
line 428). -/
def pendingDeployMsg : String :=
  "⏳ You have a pending deploy. Reply *yes* / *no* first, or `/cancel`"

/-- First reply of `cmd_deploy` once it decides to push. -/
def pushingMsg : String := "🚀 Pushing to GitHub..."

/-- The `TargetNotFound` reply (bot.py lines 269-275), listing the sorted
available paths. -/
def targetNotFoundMsg (target : String) (available : List String) : String :=
  "⚠️ `" ++ target ++ "` not found in production.\nAvailable files: `" ++
    String.intercalate ", " available ++ "`\n\nUse `/newfile " ++ target ++
    " <prompt>` to create it."

/-- The 800-character preview with continuation marker (bot.py
lines 308-310). -/
def previewSnippet (generated : String) : String :=
  if generated.length > 800 then strTake generated 800 ++ "\n..."
  else strTake generated 800

/-- The staging-success reply (bot.py lines 312-318). -/
def stagedMsg (target generated : String) : String :=
  "✅ *Staged to /dev/" ++ target ++ "*\n📏 Size: " ++
    pyThousands generated.length ++ " chars\n\n```\n" ++
    previewSnippet generated ++ "\n```\n\n→ Reply *yes* to deploy or *no* to cancel\n→ Or use `/preview` to see more"

/-- `_generate_and_stage` (bot.py lines 260-323).  `content_hash` stands for
md5 hexdigest; `gen` is the outcome of the external generation call, whose
successful text is post-processed by `clean_generated`.  The function reads
the published root, rejects a missing edit target before generating, runs
the duplicate check, and otherwise stages the body and installs the pending
slot.  The generation call and the ledger read both sit inside the Python
`try`, so either failure surfaces as the generic error reply with the state
untouched. -/
def _generate_and_stage (st : SessionState) (content_hash : String → String)
    (prompt target_file : String) (is_new : Bool)
    (gen : Except String String) : StepResult :=
  let site_files := st.prodFiles
  if !is_new && (fmLookup site_files target_file).isNone then
    { state := st
      replies := [readingMsg,
        targetNotFoundMsg target_file (sortStrings (site_files.map Prod.fst))] }
  else
    match gen with
    | .error e =>
      { state := st
        replies := [readingMsg, readCountMsg site_files.length, "❌ Error: " ++ e] }
    | .ok raw =>
      let generated := cleanGeneratedStr raw
      let h := content_hash generated
      match was_already_deployed target_file h st.ledger with
      | .error e =>
        { state := st
          replies := [readingMsg, readCountMsg site_files.length, "❌ Error: " ++ e] }
      | .ok true =>
        { state := st
          replies := [readingMsg, readCountMsg site_files.length, alreadyDeployedMsg] }
      | .ok false =>
        let dev_path := "public_html/dev/" ++ target_file
        { state :=
            { st with
              devFiles := fmWrite st.devFiles target_file generated
              pending := some
                { file := target_file, hash := h, prompt := prompt
                  dev_path := dev_path } }
          replies := [readingMsg, readCountMsg site_files.length,
            stagedMsg target_file generated] }

/-- `handle_message` (bot.py lines 423-438): a plain text message is
rejected while a deploy is pending, ignored when blank after stripping,
and otherwise treated as an edit of index.html. -/
def handle_message (st : SessionState) (content_hash : String → String)
    (text : String) (gen : Except String String) : StepResult :=
  if st.pending.isSome then
    { state := st, replies := [pendingDeployMsg] }
  else
    let prompt := strTrim text
    if prompt = "" then { state := st, replies := [] }
    else _generate_and_stage st content_hash prompt "index.html" false gen

/-- `cmd_edit` (bot.py lines 231-237): strip the command word, require a
nonempty prompt, then stage an edit of index.html.  There is no pending
check on this path. -/
def cmd_edit (st : SessionState) (content_hash : String → String)
    (text : String) (gen : Except String String) : StepResult :=
  let prompt := strTrim (replaceFirstStr text "/edit" "")
  if prompt = "" then
    { state := st, replies := ["Usage: `/edit <what to change>`"] }
  else _generate_and_stage st content_hash prompt "index.html" false gen

/-- `cmd_editfile` (bot.py lines 240-247): split off the filename, then
stage an edit of that file.  No pending check. -/
def cmd_editfile (st : SessionState) (content_hash : String → String)
    (text : String) (gen : Except String String) : StepResult :=
  let rest := strTrim (replaceFirstStr text "/editfile" "")
  match splitOnceChar ' ' rest.toList with
  | none =>
    { state := st, replies := ["Usage: `/editfile <filename> <what to change>`"] }
  | some (fn, pr) =>
    _generate_and_stage st content_hash pr.asString fn.asString false gen

/-- `cmd_newfile` (bot.py lines 250-257): like `cmd_editfile` but with
`is_new` set, skipping the existence check.  No pending check. -/
def cmd_newfile (st : SessionState) (content_hash : String → String)
    (text : String) (gen : Except String String) : StepResult :=
  let rest := strTrim (replaceFirstStr text "/newfile" "")
  match splitOnceChar ' ' rest.toList with
  | none =>
    { state := st, replies := ["Usage: `/newfile <filename> <prompt>`"] }
  | some (fn, pr) =>
    _generate_and_stage st content_hash pr.asString fn.asString true gen

/-- Result of `cmd_deploy`: successor state, replies, and the commit
message handed to `git_push` (`none` when no push was attempted).  The
whole call is `.error` when an uncaught exception escapes the handler
(the ledger read inside `log_deployment` is not wrapped in a `try`). -/
structure DeployResult where
  state : SessionState
  replies : List String
  commit_message : Option String
deriving DecidableEq, Repr

/-- `cmd_deploy` (bot.py lines 326-344): with no pending change it refuses
only when the staged root is empty, otherwise pushes with the fixed manual
commit message; with a pending change it pushes with a commit message built
from the prompt, and only when the push result contains the success marker
does it record the ledger entry and clear the pending slot. -/
def cmd_deploy (st : SessionState) (push : PushResult) (ts : String) :
    Except String DeployResult :=
  match st.pending with
  | none =>
    if st.devFiles.isEmpty then
      .ok { state := st, replies := ["Nothing staged in /dev to deploy."]
            commit_message := none }
    else
      .ok { state := st, replies := [pushingMsg, git_push_msg push]
            commit_message := some "Bot deploy: manual push" }
  | some p =>
    let commit_msg := "Bot deploy: " ++ strTake p.prompt 60
    let result := git_push_msg push
    if strIn "✅" result then
      match log_deployment st.ledger p.file p.hash p.prompt ts with
      | .error e => .error e
      | .ok lf =>
        .ok { state := { st with ledger := lf, pending := none }
              replies := [pushingMsg, result], commit_message := some commit_msg }
    else
      .ok { state := st, replies := [pushingMsg, result]
            commit_message := some commit_msg }

/-- The Markdown wrapper around each preview chunk (bot.py line 361). -/
def wrapChunk (c : List Char) : String := "```\n" ++ c.asString ++ "\n```"

/-- `cmd_preview` (bot.py lines 347-363): with no pending change, a hint;
otherwise the staged file is read back and sent in 3,900-character chunks
(a read failure is caught and reported). -/
def cmd_preview (st : SessionState) : StepResult :=
  match st.pending with
  | none => { state := st, replies := ["Nothing pending. Use `/edit` first."] }
  | some p =>
    match fmLookup st.devFiles p.file with
    | none => { state := st, replies := ["Error reading preview: file missing"] }
    | some content =>
      { state := st, replies := (previewChunks content.toList).map wrapChunk }

/-- `cmd_cancel` (bot.py lines 366-378): delete the staged file
(best-effort) and clear the pending slot. -/
def cmd_cancel (st : SessionState) : StepResult :=
  match st.pending with
  | some p =>
    { state := { st with devFiles := fmErase st.devFiles p.file, pending := none }
      replies := ["🗑️ Cancelled. Staged file removed."] }
  | none => { state := st, replies := ["Nothing to cancel."] }

/-- Outcome of `handle_confirm`. -/
inductive ConfirmResult where
  | noPending : ConfirmResult
  | deployed : Except String DeployResult → ConfirmResult
  | cancelled : StepResult → ConfirmResult
  | other : ConfirmResult
deriving Repr

/-- `handle_confirm` (bot.py lines 407-418): lowercase and strip the text;
with no pending change fall through; `yes`/`y` confirms via `cmd_deploy`,
`no`/`n` cancels via `cmd_cancel`. -/
def handle_confirm (st : SessionState) (text : String) (push : PushResult)
    (ts : String) : ConfirmResult :=
  let t := strTrim (strLower text)
  match st.pending with
  | none => .noPending
  | some _ =>
    if t = "yes" || t = "y" then .deployed (cmd_deploy st push ts)
    else if t = "no" || t = "n" then .cancelled (cmd_cancel st)
    else .other

/-- A concrete pending change, used by the concrete evaluations below. -/
def exPending : Pending :=
  { file := "index.html", hash := "h0", prompt := "p0"
    dev_path := "public_html/dev/index.html" }

/-- A concrete session with a pending change staged for index.html. -/
def exPendingState : SessionState :=
  { prodFiles := [("index.html", "<html>old</html>")]
    devFiles := [("index.html", "<html>staged</html>")]
    ledger := .entries []
    pending := some exPending }

/-- A concrete idle session with one published file and nothing staged. -/
def exIdleState : SessionState :=
  { prodFiles := [("index.html", "<html>old</html>")]
    devFiles := []
    ledger := .entries []
    pending := none }

/-- A concrete idle session whose ledger already records the body
`<html>new</html>` for index.html (fingerprints taken with the identity
hash). -/
def exDupState : SessionState :=
  { prodFiles := [("index.html", "<html>old</html>")]
    devFiles := []
    ledger := .entries
      [{ file := "index.html", hash := "<html>new</html>", prompt := "p"
         timestamp := "t" }]
    pending := none }

/-- A concrete session with staged files but no pending change. -/
def exManualState : SessionState :=
  { prodFiles := [("index.html", "x")]
    devFiles := [("index.html", "y")]
    ledger := .entries []
    pending := none }

/-! Helper lemmas. -/

/-- The head surviving a `dropWhile` fails the predicate. -/
theorem dropWhile_head_false (p : Char → Bool) :
    ∀ (l : List Char) (c : Char) (cs : List Char),
      List.dropWhile p l = c :: cs → p c = false := by
  intro l
  induction l with
  | nil => intro c cs h; cases h
  | cons x xs ih =>
    intro c cs h
    rw [List.dropWhile_cons] at h
    by_cases hx : p x = true
    · exact ih c cs (by rwa [if_pos hx] at h)
    · rw [if_neg hx] at h
      cases h
      simpa using hx

/-- A trimmed list has no leading whitespace left to drop. -/
theorem dropWhile_trimChars (s : List Char) :
    List.dropWhile Char.isWhitespace (trimChars s) = trimChars s := by
  unfold trimChars
  set p := Char.isWhitespace with hp
  set u := List.dropWhile p s with hu
  have hu_self : List.dropWhile p u = u := by
    rw [hu]
    exact List.dropWhile_idempotent p s
  obtain ⟨t, ht⟩ := List.rdropWhile_prefix p u
  cases hv : List.rdropWhile p u with
  | nil => simp
  | cons c cs =>
    have hcu : List.dropWhile p u = c :: (cs ++ t) := by
      rw [hu_self, ← ht, hv]
      simp
    have hc : p c = false := dropWhile_head_false p u c (cs ++ t) hcu
    rw [List.dropWhile_cons, if_neg (by simp [hc])]

/-- Python strip is idempotent. -/
theorem trimChars_idem (s : List Char) : trimChars (trimChars s) = trimChars s := by
  conv_lhs => rw [trimChars]
  rw [dropWhile_trimChars]
  unfold trimChars
  exact List.rdropWhile_idempotent _ _

/-- The fence-stripping output is already trimmed. -/
theorem clean_generated_trimmed (raw : List Char) :
    trimChars (clean_generated raw) = clean_generated raw := by
  simp only [clean_generated]
  exact trimChars_idem _

/-- A trimmed text that neither starts nor ends with the fence marker is a
fixed point of the fence stripping. -/
theorem clean_generated_eq_self (t : List Char) (ht : trimChars t = t)
    (h1 : fence.isPrefixOf t = false) (h2 : fence.isSuffixOf t = false) :
    clean_generated t = t := by
  simp only [clean_generated, ht, h1, h2, Bool.false_eq_true, if_false]

/-- The preview chunks concatenate back to the whole text. -/
theorem previewChunks_flatten (s : List Char) : (previewChunks s).flatten = s := by
  induction s using previewChunks.induct with
  | case1 => simp [previewChunks]
  | case2 s hne ih =>
    rw [previewChunks]
    simp [hne, ih]

/-- Every preview chunk has at most 3,900 characters. -/
theorem previewChunks_le (s : List Char) :
    ∀ c ∈ previewChunks s, c.length ≤ 3900 := by
  induction s using previewChunks.induct with
  | case1 => simp [previewChunks]
  | case2 s hne ih =>
    rw [previewChunks]
    simp only [hne, if_neg, dite_false, List.mem_cons]
    rintro c (rfl | hc)
    · simp [List.length_take_le 3900 s]
    · exact ih c hc

/-- The target-existence guard of `_generate_and_stage` passes when the
request creates a new file or the target is published. -/
theorem target_check_false (st : SessionState) (target_file : String)
    (is_new : Bool)
    (htarget : is_new = true ∨ (fmLookup st.prodFiles target_file).isSome = true) :
    (!is_new && (fmLookup st.prodFiles target_file).isNone) = false := by
  rcases htarget with hn | hs
  · simp [hn]
  · rcases Option.isSome_iff_exists.mp hs with ⟨v, hv⟩
    simp [hv]

/-! Claim theorems. -/

/-- C3 (amended): a missing backing file is treated as an empty ledger on
read, and `was_already_deployed` then answers false for every
(path, fingerprint) pair.  (A corrupt file, by contrast, raises — see the
counterexample.) -/
theorem missing_ledger_reads_empty :
    load_deploy_log .missing = .ok [] ∧
    ∀ f h : String, was_already_deployed f h .missing = .ok false :=
  ⟨rfl, fun _ _ => rfl⟩

/-- C3 counterexample: a corrupt backing file is not treated as an empty
ledger — `json.load` raises and the error propagates, both from the raw
read and from `was_already_deployed`. -/
theorem load_deploy_log_corrupt_errors :
    load_deploy_log .corrupt = .error "JSONDecodeError" ∧
    was_already_deployed "index.html" "abc" .corrupt = .error "JSONDecodeError" ∧
    load_deploy_log .corrupt ≠ .ok [] :=
  ⟨rfl, rfl, fun hcontra => Except.noConfusion hcontra⟩

/-- C4 (amended): the fence-strip normalization is idempotent on every
input whose once-normalized output neither starts nor ends with the
3-character fence marker. -/
theorem clean_generated_idem_of_no_fence (raw : List Char)
    (h1 : fence.isPrefixOf (clean_generated raw) = false)
    (h2 : fence.isSuffixOf (clean_generated raw) = false) :
    clean_generated (clean_generated raw) = clean_generated raw :=
  clean_generated_eq_self _ (clean_generated_trimmed raw) h1 h2

/-- C4 witness: a fenced generator output normalizes to `hello`, which has
no fence marker at either end, and a second normalization is a no-op. -/
theorem clean_generated_idem_of_no_fence_wit :
    fence.isPrefixOf (clean_generated "```html\nhello\n```".toList) = false ∧
    fence.isSuffixOf (clean_generated "```html\nhello\n```".toList) = false ∧
    clean_generated (clean_generated "```html\nhello\n```".toList) =
      clean_generated "```html\nhello\n```".toList :=
  ⟨by decide, by decide,
    clean_generated_idem_of_no_fence _ (by decide) (by decide)⟩

/-- C4 counterexample: on the possible generator output `x` followed by
six backticks, one pass yields `x` followed by three backticks and a second
pass yields bare `x`, so the normalization is not idempotent. -/
theorem clean_generated_not_idempotent :
    clean_generated (clean_generated "x``````".toList) ≠
      clean_generated "x``````".toList := by decide

/-- C1 (amended): while a pending change exists, a plain-message generate
request is rejected with the pending-deploy signal and the whole session
state — pending slot, staged root, ledger — is left unchanged. -/
theorem handle_message_rejects_while_pending (st : SessionState)
    (content_hash : String → String) (text : String)
    (gen : Except String String) (p : Pending) (hp : st.pending = some p) :
    handle_message st content_hash text gen =
      { state := st, replies := [pendingDeployMsg] } := by
  unfold handle_message
  simp [hp]

/-- C1 witness: the plain-message guard at a concrete pending state. -/
theorem handle_message_rejects_while_pending_wit :
    exPendingState.pending = some exPending ∧
    handle_message exPendingState (fun s => s) "hello" (.ok "z") =
      { state := exPendingState, replies := [pendingDeployMsg] } :=
  ⟨rfl, handle_message_rejects_while_pending exPendingState (fun s => s) "hello"
    (.ok "z") exPending rfl⟩

/-- C1 counterexample: `/edit` issued while a pending change exists is not
rejected — it overwrites the pending slot and writes to the staged root
(`cmd_edit`, and likewise `cmd_editfile`/`cmd_newfile`, never consult the
pending slot). -/
theorem cmd_edit_bypasses_pending_guard :
    exPendingState.pending = some exPending ∧
    (cmd_edit exPendingState (fun s => s) "/edit make it blue"
        (.ok "<html>new</html>")).state.pending ≠ exPendingState.pending ∧
    (cmd_edit exPendingState (fun s => s) "/edit make it blue"
        (.ok "<html>new</html>")).state.devFiles ≠ exPendingState.devFiles := by
  refine ⟨rfl, ?_, ?_⟩ <;> decide

/-- C2 (amended): a confirm from the pending state whose push result lacks
the success marker (a git failure or a nothing-to-push report) surfaces the
result message and records no ledger entry, but the pending change is NOT
cleared: the state is returned unchanged, still pending. -/
theorem cmd_deploy_failure_keeps_pending (st : SessionState) (p : Pending)
    (push : PushResult) (ts : String) (hp : st.pending = some p)
    (hfail : strIn "✅" (git_push_msg push) = false) :
    cmd_deploy st push ts =
      .ok { state := st, replies := [pushingMsg, git_push_msg push]
            commit_message := some ("Bot deploy: " ++ strTake p.prompt 60) } := by
  unfold cmd_deploy
  rw [hp]
  simp [hfail]

/-- C2 witness: a nothing-to-push confirm at a concrete pending state. -/
theorem cmd_deploy_failure_keeps_pending_wit :
    exPendingState.pending = some exPending ∧
    strIn "✅" (git_push_msg .nothingToPush) = false ∧
    cmd_deploy exPendingState .nothingToPush "t0" =
      .ok { state := exPendingState
            replies := [pushingMsg, git_push_msg .nothingToPush]
            commit_message := some ("Bot deploy: " ++ strTake exPending.prompt 60) } :=
  ⟨rfl, by decide, cmd_deploy_failure_keeps_pending exPendingState exPending
    .nothingToPush "t0" rfl (by decide)⟩

/-- C2 counterexample: after a failing push the session still holds the
pending change — it is not cleared and the session does not return to
idle, contrary to the fail-open reading. -/
theorem cmd_deploy_failure_keeps_pending_cex :
    cmd_deploy exPendingState (.gitError "boom") "2024-01-01T00:00:00" =
      .ok { state := exPendingState
            replies := [pushingMsg, "❌ Git error: boom"]
            commit_message := some "Bot deploy: p0" } ∧
    exPendingState.pending = some exPending ∧
    some exPending ≠ (none : Option Pending) :=
  ⟨rfl, rfl, by decide⟩

/-- C5: a generate-and-stage request from the idle state whose generated
body already has a matching ledger entry for the target reports the
duplicate no-op and returns the state unchanged — still idle, no pending
change, staged root and ledger untouched. -/
theorem generate_and_stage_duplicate_noop (st : SessionState)
    (content_hash : String → String) (prompt target_file raw : String)
    (is_new : Bool) (_hidle : st.pending = none)
    (htarget : is_new = true ∨ (fmLookup st.prodFiles target_file).isSome = true)
    (hdup : was_already_deployed target_file
        (content_hash (cleanGeneratedStr raw)) st.ledger = .ok true) :
    _generate_and_stage st content_hash prompt target_file is_new (.ok raw) =
      { state := st
        replies := [readingMsg, readCountMsg st.prodFiles.length,
          alreadyDeployedMsg] } := by
  simp only [_generate_and_stage]
  rw [target_check_false st target_file is_new htarget]
  simp [hdup]

/-- C5 witness: the duplicate no-op at a concrete idle state whose ledger
already holds the fingerprint of the generated body. -/
theorem generate_and_stage_duplicate_noop_wit :
    exDupState.pending = none ∧
    (fmLookup exDupState.prodFiles "index.html").isSome = true ∧
    was_already_deployed "index.html"
        ((fun s => s) (cleanGeneratedStr "<html>new</html>")) exDupState.ledger =
      .ok true ∧
    _generate_and_stage exDupState (fun s => s) "make it new" "index.html" false
        (.ok "<html>new</html>") =
      { state := exDupState
        replies := [readingMsg, readCountMsg exDupState.prodFiles.length,
          alreadyDeployedMsg] } :=
  ⟨rfl, by decide, rfl,
    generate_and_stage_duplicate_noop exDupState (fun s => s) "make it new"
      "index.html" "<html>new</html>" false rfl (Or.inr (by decide)) rfl⟩

/-- C6: an edit request (not a new-file request) whose target is absent
from the published set fails with the target-not-found reply listing the
available paths, leaves the state unchanged — no staged write, no pending
change — and never consults the generation outcome (the result is the same
for every `gen`). -/
theorem generate_and_stage_target_not_found (st : SessionState)
    (content_hash : String → String) (prompt target_file : String)
    (gen : Except String String)
    (habs : fmLookup st.prodFiles target_file = none) :
    _generate_and_stage st content_hash prompt target_file false gen =
      { state := st
        replies := [readingMsg,
          targetNotFoundMsg target_file
            (sortStrings (st.prodFiles.map Prod.fst))] } := by
  unfold _generate_and_stage
  simp [habs]

/-- C6 witness: editing the unpublished about.html at a concrete state. -/
theorem generate_and_stage_target_not_found_wit :
    fmLookup exIdleState.prodFiles "about.html" = none ∧
    _generate_and_stage exIdleState (fun s => s) "make an about page"
        "about.html" false (.ok "zzz") =
      { state := exIdleState
        replies := [readingMsg,
          targetNotFoundMsg "about.html"
            (sortStrings (exIdleState.prodFiles.map Prod.fst))] } :=
  ⟨by decide,
    generate_and_stage_target_not_found exIdleState (fun s => s)
      "make an about page" "about.html" (.ok "zzz") (by decide)⟩

/-- C9: when the external generation call fails, the failure message is
surfaced in the error reply, and the state is returned unchanged — no
pending change is created and the staged root is untouched; the single
invocation is never retried. -/
theorem generate_and_stage_generation_failure (st : SessionState)
    (content_hash : String → String) (prompt target_file e : String)
    (is_new : Bool)
    (htarget : is_new = true ∨ (fmLookup st.prodFiles target_file).isSome = true) :
    _generate_and_stage st content_hash prompt target_file is_new (.error e) =
      { state := st
        replies := [readingMsg, readCountMsg st.prodFiles.length,
          "❌ Error: " ++ e] } := by
  simp only [_generate_and_stage]
  rw [target_check_false st target_file is_new htarget]
  simp

/-- C9 witness: a failing generation call at a concrete idle state. -/
theorem generate_and_stage_generation_failure_wit :
    (fmLookup exIdleState.prodFiles "index.html").isSome = true ∧
    _generate_and_stage exIdleState (fun s => s) "edit it" "index.html" false
        (.error "rate limited") =
      { state := exIdleState
        replies := [readingMsg, readCountMsg exIdleState.prodFiles.length,
          "❌ Error: " ++ "rate limited"] } :=
  ⟨by decide,
    generate_and_stage_generation_failure exIdleState (fun s => s) "edit it"
      "index.html" "rate limited" false (Or.inr (by decide))⟩

/-- C7: on a readable ledger of any length, `log_deployment` appends one
entry carrying the truncated prompt and the timestamp and keeps exactly the
last 50 entries: the retained list is that suffix, has at most 50 elements,
is evicted oldest-first (it is a suffix of the appended list) and ends with
the new entry; and `was_already_deployed` answers true exactly when some
retained entry matches both the path and the fingerprint. -/
theorem log_deployment_spec (log : List LedgerEntry) (f h pr ts q w : String) :
    log_deployment (.entries log) f h pr ts =
      .ok (.entries (lastN 50 (log ++ [mkEntry f h pr ts]))) ∧
    (mkEntry f h pr ts).prompt = strTake pr 100 ∧
    (mkEntry f h pr ts).timestamp = ts ∧
    (lastN 50 (log ++ [mkEntry f h pr ts])).length ≤ 50 ∧
    lastN 50 (log ++ [mkEntry f h pr ts]) <:+ log ++ [mkEntry f h pr ts] ∧
    (lastN 50 (log ++ [mkEntry f h pr ts])).getLast? = some (mkEntry f h pr ts) ∧
    (was_already_deployed q w (.entries log) = .ok true ↔
      ∃ e ∈ log, e.file = q ∧ e.hash = w) := by
  refine ⟨rfl, rfl, rfl, ?_, ?_, ?_, ?_⟩
  · simp only [lastN, List.length_drop]
    omega
  · exact List.drop_suffix _ _
  · have hk : (log ++ [mkEntry f h pr ts]).length - 50 ≤ log.length := by
      simp only [List.length_append, List.length_cons, List.length_nil]
      omega
    rw [lastN, List.drop_append_of_le_length hk]
    exact List.getLast?_concat _
  · simp [was_already_deployed, load_deploy_log, List.any_eq_true,
      Bool.and_eq_true, beq_iff_eq]

/-- C8: in the pending state, the preview of the staged body is the
Markdown-wrapped chunk sequence; the chunks are each at most 3,900
characters and concatenate, in delivery order, back to the staged body. -/
theorem cmd_preview_chunks_spec (st : SessionState) (p : Pending)
    (body : String) (hp : st.pending = some p)
    (hb : fmLookup st.devFiles p.file = some body)
    (_hne : body.toList ≠ []) :
    cmd_preview st =
      { state := st, replies := (previewChunks body.toList).map wrapChunk } ∧
    (previewChunks body.toList).flatten = body.toList ∧
    ∀ c ∈ previewChunks body.toList, c.length ≤ 3900 := by
  refine ⟨?_, previewChunks_flatten _, previewChunks_le _⟩
  unfold cmd_preview
  rw [hp]
  dsimp only
  rw [hb]

/-- C8 witness: the preview of a concrete short staged body. -/
theorem cmd_preview_chunks_spec_wit :
    exPendingState.pending = some exPending ∧
    fmLookup exPendingState.devFiles "index.html" = some "<html>staged</html>" ∧
    ("<html>staged</html>".toList).length = 19 ∧
    (cmd_preview exPendingState =
      { state := exPendingState
        replies := (previewChunks "<html>staged</html>".toList).map wrapChunk } ∧
     (previewChunks "<html>staged</html>".toList).flatten =
       "<html>staged</html>".toList ∧
     ∀ c ∈ previewChunks "<html>staged</html>".toList, c.length ≤ 3900) :=
  ⟨rfl, by decide, by decide,
    cmd_preview_chunks_spec exPendingState exPending "<html>staged</html>" rfl
      (by decide) (by decide)⟩

/-- C10: a `/deploy` with no pending change but a nonempty staged root
pushes with the fixed manual commit message and returns the state — ledger
included — unchanged whatever the push outcome; moreover `cmd_deploy`
changes the ledger only when a pending change exists and the push result
carries the success marker, and neither `_generate_and_stage` nor
`cmd_cancel` ever changes the ledger. -/
theorem cmd_deploy_manual_push_frame (st : SessionState) (push : PushResult)
    (ts : String) (hp : st.pending = none) (hd : st.devFiles ≠ []) :
    cmd_deploy st push ts =
      .ok { state := st, replies := [pushingMsg, git_push_msg push]
            commit_message := some "Bot deploy: manual push" } ∧
    (∀ (st2 : SessionState) (push2 : PushResult) (ts2 : String)
        (r : DeployResult),
      cmd_deploy st2 push2 ts2 = .ok r → r.state.ledger ≠ st2.ledger →
        ∃ p, st2.pending = some p ∧ strIn "✅" (git_push_msg push2) = true) ∧
    (∀ (st2 : SessionState) (ch : String → String) (pr tg : String) (nw : Bool)
        (g : Except String String),
      (_generate_and_stage st2 ch pr tg nw g).state.ledger = st2.ledger) ∧
    (∀ st2 : SessionState, (cmd_cancel st2).state.ledger = st2.ledger) := by
  refine ⟨?_, ?_, ?_, ?_⟩
  · have hde : st.devFiles.isEmpty = false := by
      cases h2 : st.devFiles with
      | nil => exact absurd h2 hd
      | cons a l => rfl
    unfold cmd_deploy
    rw [hp]
    simp [hde]
  · intro st2 push2 ts2 r hok hne
    cases hp2 : st2.pending with
    | none =>
      unfold cmd_deploy at hok
      rw [hp2] at hok
      split_ifs at hok <;>
        (injection hok with hr; subst hr; exact absurd rfl hne)
    | some p =>
      by_cases hs : strIn "✅" (git_push_msg push2) = true
      · exact ⟨p, rfl, hs⟩
      · simp only [cmd_deploy, hp2] at hok
        rw [if_neg hs] at hok
        injection hok with hr
        subst hr
        exact absurd rfl hne
  · intro st2 ch pr tg nw g
    simp only [_generate_and_stage]
    split
    · rfl
    · cases g with
      | error e => rfl
      | ok raw =>
        cases hw : was_already_deployed tg (ch (cleanGeneratedStr raw)) st2.ledger with
        | error e => simp only [hw]
        | ok b =>
          cases b <;> simp only [hw]
  · intro st2
    unfold cmd_cancel
    cases st2.pending <;> rfl

/-- C10 witness: a concrete manual `/deploy` with a failing push. -/
theorem cmd_deploy_manual_push_frame_wit :
    exManualState.pending = none ∧
    exManualState.devFiles.isEmpty = false ∧
    cmd_deploy exManualState (.gitError "denied") "t1" =
      .ok { state := exManualState
            replies := [pushingMsg, git_push_msg (.gitError "denied")]
            commit_message := some "Bot deploy: manual push" } :=
  ⟨rfl, rfl,
    (cmd_deploy_manual_push_frame exManualState (.gitError "denied") "t1" rfl
      (by decide)).1⟩

end Ignyte
